import Mathlib

/-!
# Agones `pkg/apis/agones/v1/common.go`: name validation and the allocation overflow policy

A shallow embedding of `validateName`, `AllocationOverflow.CountMatches` and
`AllocationOverflow.Apply`, together with the parts of the Go runtime and of
`k8s.io/apimachinery/pkg/labels` they call, followed by theorems about them.

Conventions of the embedding:

* a Go `map[string]string` is `GoMap`: `none` is the nil map, `some m` a map with
  the finite set of bindings `m` (keys pairwise distinct, no order);
* maps are values in `CountMatches` and `Apply`; `RefAllocationOverflow.Apply` is `Apply`
  on references to map objects, where two fields may share one object, and it computes
  what `Apply` on values computes when the maps involved are separate objects;
* a Go `int32` is an `Int` kept in range by `int32`, which wraps around like the
  Go operators do;
* a `[]*GameServer` is a `List GameServer` (no nil pointers); a method that
  mutates its receiver argument returns the updated value;
* Go `len` of a string counts bytes, `String.utf8ByteSize` here.
-/

namespace Agones

/-! ## Go runtime -/

/-- A Go `map[string]string` that is not nil: finitely many bindings with distinct keys. -/
abbrev StringMap := Finmap (fun _ : String => String)

/-- A Go `map[string]string`: `none` is the nil map. -/
abbrev GoMap := Option StringMap

/-- Go `v, ok := m[k]`: `some v` when `k` is bound to `v`, `none` when `k` is unset
(always the case in a nil map). -/
def GoMap.index (m : GoMap) (k : String) : Option String :=
  match m with
  | none => none
  | some s => s.lookup k

/-- Go `len(m)` of a map. -/
def GoMap.len (m : GoMap) : Nat :=
  match m with
  | none => 0
  | some s => Multiset.card s.entries

/-- One step of a map-copying loop, `dst[k] = v`, folded over a list of entries. -/
def assignEntries (l : List (Sigma (fun _ : String => String))) (dst : StringMap) : StringMap :=
  l.foldl (fun m e => m.insert e.1 e.2) dst

/-- Looking a key up after the assignments: the binding of the source when it has one,
otherwise the previous binding of the destination. -/
theorem lookup_assignEntries (l : List (Sigma (fun _ : String => String))) :
    l.NodupKeys → ∀ (dst : StringMap) (k : String),
      (assignEntries l dst).lookup k = ((l.dlookup k).orElse fun _ => dst.lookup k) := by
  induction l with
  | nil => intro _ dst k; simp [assignEntries]
  | cons e l ih =>
    intro hnd dst k
    obtain ⟨hk, hl⟩ := List.nodupKeys_cons.mp hnd
    have h := ih hl (dst.insert e.1 e.2) k
    simp only [assignEntries, List.foldl_cons] at h ⊢
    rw [h]
    obtain ⟨a, b⟩ := e
    by_cases hka : k = a
    · subst hka
      have hnone : List.dlookup k l = none := List.dlookup_eq_none.mpr hk
      simp [hnone, Finmap.lookup_insert]
    · have hne : a ≠ k := fun h => hka h.symm
      rw [Finmap.lookup_insert_of_ne _ hka, List.dlookup_cons_ne _ _ hka]

/-- The assignments give the same map in whatever order the entries are visited. -/
theorem assignEntries_perm (a b : AList (fun _ : String => String))
    (h : a.entries.Perm b.entries) (dst : StringMap) :
    assignEntries a.entries dst = assignEntries b.entries dst := by
  apply Finmap.ext_lookup
  intro k
  rw [lookup_assignEntries _ a.nodupKeys, lookup_assignEntries _ b.nodupKeys,
    List.perm_dlookup k a.nodupKeys b.nodupKeys h]

/-- Go `for k, v := range src { dst[k] = v }` on non-nil maps. Go visits the entries of
`src` in an unspecified order; the keys of a map are distinct, so every order yields the
same `dst` (`assignEntries_perm`). -/
def rangeAssign (src dst : StringMap) : StringMap :=
  src.liftOn (fun s => assignEntries s.entries dst) (fun a b h => assignEntries_perm a b h dst)

/-- Go `int32` arithmetic: the result of an operation is reduced into
`[-2^31, 2^31)` by wrap-around. -/
def int32 (n : Int) : Int := (n + 2147483648) % 4294967296 - 2147483648

/-! ## `k8s.io/apimachinery/pkg/labels` -/

namespace labels

/-- The `labels.Set.Has` method: `_, exists := ls[label]; return exists`. -/
def Has (ls : GoMap) (label : String) : Bool := (ls.index label).isSome

/-- The `labels.Set.Get` method: `return ls[label]`, the empty string when `label` is unset. -/
def Get (ls : GoMap) (label : String) : String := (ls.index label).getD ""

/-- A `labels.Requirement` as `SelectorFromSet` builds it: the operator is always
`selection.Equals`, so only the key and the values are kept. -/
structure Requirement where
  key : String
  strValues : List String
deriving DecidableEq

/-- The `Requirement.hasValue` method: some element of `strValues` equals `value`. -/
def Requirement.hasValue (r : Requirement) (value : String) : Bool :=
  r.strValues.any (fun s => s == value)

/-- The `Requirement.Matches` method, case `selection.Equals`:
`if !ls.Has(r.key) { return false }; return r.hasValue(ls.Get(r.key))`. -/
def Requirement.Matches (r : Requirement) (ls : GoMap) : Bool :=
  if !Has ls r.key then false else r.hasValue (Get ls r.key)

/-- A `labels.internalSelector`, a slice of requirements. The library sorts the slice by
key, which only fixes its printed form; the requirements are kept here without an order. -/
abbrev Selector := Multiset Requirement

/-- The `labels.Set.AsSelector` method (`SelectorFromSet`): the empty selector when
`ls == nil || len(ls) == 0`, otherwise one requirement `key = value` for every binding of the
set; keys and values are not validated. -/
def AsSelector (ls : GoMap) : Selector :=
  match ls with
  | none => 0
  | some s =>
    if GoMap.len (some s) = 0 then 0
    else s.entries.map (fun e => { key := e.1, strValues := [e.2] })

/-- The `internalSelector.Matches` method: every requirement matches. -/
def Selector.Matches (s : Selector) (l : GoMap) : Bool :=
  decide (∀ r ∈ s, r.Matches l = true)

end labels

/-! ## `k8s.io/apimachinery` metadata -/

/-- The constant `validation.LabelValueMaxLength`. -/
def LabelValueMaxLength : Nat := 63

/-- The constant `metav1.CauseTypeFieldValueInvalid` (a `CauseType`, which is a string). -/
def CauseTypeFieldValueInvalid : String := "FieldValueInvalid"

/-- A `metav1.StatusCause`; the field `Type` is written `Type_`. -/
structure StatusCause where
  Type_ : String
  Field : String
  Message : String
deriving DecidableEq

/-- A `field.Error` of the validation library, as far as the code uses it: the text that its
`Error()` method returns. -/
structure FieldError where
  Error : String
deriving DecidableEq

/-- The fields of `metav1.ObjectMeta` that the code reads or writes, and the resource version. -/
structure ObjectMeta where
  Name : String
  ResourceVersion : String
  Labels : GoMap
  Annotations : GoMap
deriving DecidableEq

/-! ## Agones types -/

/-- Modelled from the spec: the type `GameServerState` is declared outside the files at
hand; these are the lifecycle states of section 4.1. -/
inductive GameServerState where
  | PortAllocation
  | Scheduled
  | RequestReady
  | Ready
  | Reserved
  | Allocated
  | Shutdown
  | Error
  | Unhealthy
deriving DecidableEq

/-- Modelled from the spec: `GameServerStatus` is declared outside the files at hand; the
state and the node name of section 3. -/
structure GameServerStatus where
  State : GameServerState
  NodeName : String
deriving DecidableEq

/-- Modelled from the spec: `GameServer` is declared outside the files at hand; the code
uses `gs.ObjectMeta.Labels`, `gs.ObjectMeta.Annotations` and `gs.Status.State`. -/
structure GameServer where
  ObjectMeta : ObjectMeta
  Status : GameServerStatus
deriving DecidableEq

/-- The interface `crd`: what `GetName()` and `GetObjectKind().GroupVersionKind().Kind`
return for the object. -/
structure crd where
  GetName : String
  Kind : String

/-- The struct `AllocationOverflow`. -/
structure AllocationOverflow where
  Labels : GoMap
  Annotations : GoMap
deriving DecidableEq

/-! ## `common.go` -/

/-- The function `validateName`. `fmt.Sprintf` with `%s` verbs splices the strings in. -/
def validateName (c : crd) : List StatusCause :=
  let causes : List StatusCause := []
  let name := c.GetName
  let kind := c.Kind
  if name.utf8ByteSize > LabelValueMaxLength then
    causes ++ [{ Type_ := CauseTypeFieldValueInvalid,
                 Field := "Name",
                 Message := "Length of " ++ kind ++ " '" ++ name ++
                   "' name should be no more than 63 characters." }]
  else causes

/-- The loop `for _, v := range errs { causes = append(causes, StatusCause{...}) }` that
`Validate` runs for the field named `fld`. -/
def appendCauses (fld : String) (causes : List StatusCause) (errs : List FieldError) :
    List StatusCause :=
  errs.foldl
    (fun acc v =>
      acc ++ [{ Type_ := CauseTypeFieldValueInvalid, Field := fld, Message := v.Error }])
    causes

/-- The method `AllocationOverflow.Validate`. The validators `metav1validation.ValidateLabels`
and `apivalidation.ValidateAnnotations` belong to the Kubernetes library and are parameters:
each takes the map and the field path (`field.NewPath(parentField)`, given by its name) and
returns its error list. -/
def AllocationOverflow.Validate
    (ValidateLabels ValidateAnnotations : GoMap → String → List FieldError)
    (ao : AllocationOverflow) : List StatusCause × Bool :=
  let causes : List StatusCause := []
  let parentField := "Spec.AllocationOverflow"
  let errs := ValidateLabels ao.Labels parentField
  let causes := if errs.length ≠ 0 then appendCauses "labels" causes errs else causes
  let errs := ValidateAnnotations ao.Annotations parentField
  let causes := if errs.length ≠ 0 then appendCauses "annotations" causes errs else causes
  (causes, causes.length == 0)

/-- The body of the loop of `CountMatches`: one game server, the running `count` and `rest`. -/
def CountMatches.step (labelSelector annotationSelector : labels.Selector)
    (acc : Int × List GameServer) (gs : GameServer) : Int × List GameServer :=
  if gs.Status.State ≠ GameServerState.Allocated then acc
  else if !labelSelector.Matches gs.ObjectMeta.Labels then (acc.1, acc.2 ++ [gs])
  else if !annotationSelector.Matches gs.ObjectMeta.Annotations then (acc.1, acc.2 ++ [gs])
  else (int32 (acc.1 + 1), acc.2)

/-- The method `AllocationOverflow.CountMatches`; `count` is an `int32`. -/
def AllocationOverflow.CountMatches (ao : AllocationOverflow) (list : List GameServer) :
    Int × List GameServer :=
  let labelSelector := labels.AsSelector ao.Labels
  let annotationSelector := labels.AsSelector ao.Annotations
  list.foldl (CountMatches.step labelSelector annotationSelector) (int32 0, [])

/-- The two blocks of `Apply` share this shape: when the overflow's map is not nil, create
the server's map if it is nil and copy every binding of the overflow's map into it. -/
def applyMap (src dst : GoMap) : GoMap :=
  match src with
  | none => dst
  | some s =>
    let d : StringMap := match dst with
      | none => ∅
      | some d => d
    some (rangeAssign s d)

/-- The method `AllocationOverflow.Apply`: annotations first, then labels. -/
def AllocationOverflow.Apply (ao : AllocationOverflow) (gs : GameServer) : GameServer :=
  let gs1 : GameServer :=
    { gs with ObjectMeta :=
        { gs.ObjectMeta with Annotations := applyMap ao.Annotations gs.ObjectMeta.Annotations } }
  { gs1 with ObjectMeta :=
      { gs1.ObjectMeta with Labels := applyMap ao.Labels gs1.ObjectMeta.Labels } }

/-! ## `Apply` on map objects -/

/-- The map objects of the program: the object at address `a` is `h[a]?`. -/
abbrev MapHeap := List StringMap

/-- A Go value of type `map[string]string` is a reference: nil (`none`) or the address of a
map object. Two references with the same address are the same map. -/
abbrev MapRef := Option Nat

/-- The map that a reference stands for in a heap. -/
def MapHeap.read (h : MapHeap) (r : MapRef) : GoMap :=
  match r with
  | none => none
  | some a => h[a]?

/-- One block of `Apply` on references:
`if src != nil { if dst == nil { dst = map[string]string{} }; for k, v := range src { dst[k] = v } }`.
Creating a map adds an object to the heap; the assignments write into the object that `dst`
refers to, whoever else refers to it. Returns the heap and the value of `dst` afterwards. -/
def applyMapRef (h : MapHeap) (src dst : MapRef) : MapHeap × MapRef :=
  match src with
  | none => (h, dst)
  | some a =>
    let hd : MapHeap × Nat := match dst with
      | none => (h ++ [∅], h.length)
      | some d => (h, d)
    let s : StringMap := (hd.1[a]?).getD ∅
    let t : StringMap := (hd.1[hd.2]?).getD ∅
    (hd.1.set hd.2 (rangeAssign s t), some hd.2)

/-- `metav1.ObjectMeta` with its maps as references. -/
structure RefObjectMeta where
  Name : String
  ResourceVersion : String
  Labels : MapRef
  Annotations : MapRef
deriving DecidableEq

/-- A `GameServer` with its maps as references. -/
structure RefGameServer where
  ObjectMeta : RefObjectMeta
  Status : GameServerStatus
deriving DecidableEq

/-- An `AllocationOverflow` with its maps as references. -/
structure RefAllocationOverflow where
  Labels : MapRef
  Annotations : MapRef
deriving DecidableEq

/-- The game server that a heap gives to a server with references. -/
def RefGameServer.deref (gs : RefGameServer) (h : MapHeap) : GameServer :=
  { ObjectMeta :=
      { Name := gs.ObjectMeta.Name, ResourceVersion := gs.ObjectMeta.ResourceVersion,
        Labels := h.read gs.ObjectMeta.Labels, Annotations := h.read gs.ObjectMeta.Annotations },
    Status := gs.Status }

/-- The overflow that a heap gives to an overflow with references. -/
def RefAllocationOverflow.deref (ao : RefAllocationOverflow) (h : MapHeap) :
    AllocationOverflow :=
  { Labels := h.read ao.Labels, Annotations := h.read ao.Annotations }

/-- The method `AllocationOverflow.Apply` on references: the annotations block, then the labels
block on the heap the first block left. Returns the heap and the server afterwards; the method
has no assignment to a field of `ao`. -/
def RefAllocationOverflow.Apply (ao : RefAllocationOverflow) (h : MapHeap)
    (gs : RefGameServer) : MapHeap × RefGameServer :=
  let r1 := applyMapRef h ao.Annotations gs.ObjectMeta.Annotations
  let gs1 : RefGameServer := { gs with ObjectMeta := { gs.ObjectMeta with Annotations := r1.2 } }
  let r2 := applyMapRef r1.1 ao.Labels gs1.ObjectMeta.Labels
  (r2.1, { gs1 with ObjectMeta := { gs1.ObjectMeta with Labels := r2.2 } })

/-! ## The specification's vocabulary -/

/-- The matching condition in the words of the specification: every key of the overflow's
labels is present in the server's labels with an equal value, and every key of the
overflow's annotations is present in the server's annotations with an equal value. -/
def SpecMatches (ao : AllocationOverflow) (gs : GameServer) : Prop :=
  (∀ k v, ao.Labels.index k = some v → gs.ObjectMeta.Labels.index k = some v) ∧
  (∀ k v, ao.Annotations.index k = some v → gs.ObjectMeta.Annotations.index k = some v)

/-- The server is in state `Allocated`. -/
def IsAllocated (gs : GameServer) : Prop := gs.Status.State = GameServerState.Allocated

instance (gs : GameServer) : Decidable (IsAllocated gs) :=
  inferInstanceAs (Decidable (gs.Status.State = GameServerState.Allocated))

/-- Two maps are the same key-to-value mapping: every key reads the same in both (a nil map and
an empty map are the same mapping). -/
def SameMapping (m1 m2 : GoMap) : Prop := ∀ k, m1.index k = m2.index k

/-- The reference is nil or the address of an object of the heap. -/
def MapRef.Allocated (r : MapRef) (h : MapHeap) : Prop := ∀ a, r = some a → a < h.length

/-- No map of the server is a map object of the overflow. -/
def Separate (ao : RefAllocationOverflow) (gs : RefGameServer) : Prop :=
  ∀ a, (gs.ObjectMeta.Labels = some a ∨ gs.ObjectMeta.Annotations = some a) →
    ao.Labels ≠ some a ∧ ao.Annotations ≠ some a

/-- The marking step in the words of the specification: `Apply` on every server of the rest
that `CountMatches` returned, the other servers of the list left as they are. Servers are compared by value: a server equal
to one of the rest is itself in the rest, so this selects the servers that the pointers in the
rest point to. -/
def applyToRest (ao : AllocationOverflow) (list : List GameServer) : List GameServer :=
  list.map (fun gs => if gs ∈ (ao.CountMatches list).2 then ao.Apply gs else gs)

/-- Adding labels and annotations to a server, in the words of the specification: the bindings
of `extraLabels` are put into the server's labels and those of `extraAnnotations` into its
annotations (a nil map of extras adds nothing). -/
def addMetadata (extraLabels extraAnnotations : GoMap) (gs : GameServer) : GameServer :=
  { gs with ObjectMeta :=
      { gs.ObjectMeta with
          Labels := applyMap extraLabels gs.ObjectMeta.Labels,
          Annotations := applyMap extraAnnotations gs.ObjectMeta.Annotations } }

/-! ## Concrete inputs used by the examples -/

/-- A game server with the given name, state, labels and annotations. -/
def mkServer (name : String) (state : GameServerState) (lbls annots : GoMap) : GameServer :=
  { ObjectMeta := { Name := name, ResourceVersion := "1", Labels := lbls, Annotations := annots },
    Status := { State := state, NodeName := "node-1" } }

/-- The map with the single binding `k: v`. -/
def oneEntry (k v : String) : GoMap := some (Finmap.singleton k v)

/-- The map with the two bindings `k1: v1` and `k2: v2`. -/
def twoEntries (k1 v1 k2 v2 : String) : GoMap :=
  some ((Finmap.singleton k2 v2).insert k1 v1)

/-- The overflow policy of the scale-down scenario: labels `tier: drain`, no annotations. -/
def drainOverflow : AllocationOverflow := { Labels := oneEntry "tier" "drain", Annotations := none }

/-- An overflow policy with neither labels nor annotations. -/
def emptyOverflow : AllocationOverflow := { Labels := none, Annotations := none }

/-- An overflow policy whose two maps exist and are empty. -/
def emptyMapsOverflow : AllocationOverflow := { Labels := some ∅, Annotations := some ∅ }

/-- An `Allocated` server without labels and annotations (both maps nil). -/
def bareServer : GameServer := mkServer "gs-0" GameServerState.Allocated none none

/-- A mixed list: an unlabelled `Allocated` server, a `Ready` server carrying the overflow
label, an `Allocated` server carrying it among other labels, an `Allocated` server with
another value for the key, and an `Allocated` server that has the binding only as an
annotation. -/
def mixedList : List GameServer :=
  [ bareServer,
    mkServer "gs-1" GameServerState.Ready (oneEntry "tier" "drain") none,
    mkServer "gs-2" GameServerState.Allocated (twoEntries "tier" "drain" "zone" "eu") none,
    mkServer "gs-3" GameServerState.Allocated (oneEntry "tier" "gold") none,
    mkServer "gs-4" GameServerState.Allocated none (oneEntry "tier" "drain") ]

/-- A heap with two map objects: `tier: drain` at address 0 and `owner: ops` at address 1. -/
def twoMapHeap : MapHeap := [Finmap.singleton "tier" "drain", Finmap.singleton "owner" "ops"]

/-- The overflow whose labels are the map at address 0 and whose annotations the map at 1. -/
def heapOverflow : RefAllocationOverflow := { Labels := some 0, Annotations := some 1 }

/-- An `Allocated` server whose annotations are the very map object of the overflow's labels. -/
def aliasedServer : RefGameServer :=
  { ObjectMeta := { Name := "gs-8", ResourceVersion := "1", Labels := none,
                    Annotations := some 0 },
    Status := { State := GameServerState.Allocated, NodeName := "node-1" } }

/-- An `Allocated` server with no maps of its own yet. -/
def freshServer : RefGameServer :=
  { ObjectMeta := { Name := "gs-9", ResourceVersion := "1", Labels := none,
                    Annotations := none },
    Status := { State := GameServerState.Allocated, NodeName := "node-1" } }

/-- Four `Allocated` servers without labels, as in the scale-down scenario. -/
def scenarioList : List GameServer :=
  [ mkServer "gs-a" GameServerState.Allocated none none,
    mkServer "gs-b" GameServerState.Allocated none none,
    mkServer "gs-c" GameServerState.Allocated none none,
    mkServer "gs-d" GameServerState.Allocated none none ]

/-- A name of 32 characters, each two bytes long in UTF-8: `len` gives 64. -/
def wideName : String := String.mk (List.replicate 32 'é')

/-! ## Lemmas on the Go runtime and the selector library -/

theorem int32_succ (c : Int) : int32 (int32 c + 1) = int32 (c + 1) := by
  unfold int32; omega

theorem int32_of_lt (n : Nat) (h : n < 2147483648) : int32 (n : Int) = (n : Int) := by
  unfold int32; omega

theorem rangeAssign_lookup (s d : StringMap) (k : String) :
    (rangeAssign s d).lookup k = ((s.lookup k).orElse fun _ => d.lookup k) := by
  induction s using Finmap.induction_on with
  | H a =>
    simp only [rangeAssign, Finmap.liftOn_toFinmap, Finmap.lookup_toFinmap]
    rw [lookup_assignEntries _ a.nodupKeys]
    rfl

/-- Reading a key after the copy: the overflow's binding if it has one, otherwise the
server's previous binding. -/
theorem applyMap_index (src dst : GoMap) (k : String) :
    (applyMap src dst).index k = ((src.index k).orElse fun _ => dst.index k) := by
  cases src with
  | none => simp [applyMap, GoMap.index]
  | some s =>
    cases dst with
    | none => simp [applyMap, GoMap.index, rangeAssign_lookup, Finmap.lookup_empty]
    | some d => simp [applyMap, GoMap.index, rangeAssign_lookup]

theorem requirement_matches_iff (k v : String) (l : GoMap) :
    labels.Requirement.Matches { key := k, strValues := [v] } l = true ↔ l.index k = some v := by
  unfold labels.Requirement.Matches labels.Has labels.Get labels.Requirement.hasValue
  cases h : l.index k with
  | none => simp
  | some w =>
    simp only [Option.isSome_some, Bool.not_true, Bool.false_eq_true, if_false,
      Option.getD_some, List.any_cons, List.any_nil, Bool.or_false, beq_iff_eq,
      Option.some.injEq]
    exact eq_comm

theorem asSelector_some (s : StringMap) :
    labels.AsSelector (some s)
      = s.entries.map (fun e => ({ key := e.1, strValues := [e.2] } : labels.Requirement)) := by
  show (if Multiset.card s.entries = 0 then (0 : labels.Selector) else _) = _
  split_ifs with h
  · rw [Multiset.card_eq_zero.mp h]
    rfl
  · rfl

/-- A selector built from a map matches a label set exactly when every binding of the map
is a binding of the label set. -/
theorem asSelector_matches_iff (m l : GoMap) :
    (labels.AsSelector m).Matches l = true ↔ ∀ k v, m.index k = some v → l.index k = some v := by
  cases m with
  | none => simp [labels.AsSelector, labels.Selector.Matches, GoMap.index]
  | some s =>
    rw [asSelector_some]
    simp only [labels.Selector.Matches, decide_eq_true_eq, Multiset.mem_map, GoMap.index]
    constructor
    · intro h k v hkv
      have hmem : (⟨k, v⟩ : Sigma (fun _ : String => String)) ∈ s.entries :=
        Finmap.mem_lookup_iff.mp (by rw [hkv]; exact rfl)
      exact (requirement_matches_iff k v l).mp (h _ ⟨⟨k, v⟩, hmem, rfl⟩)
    · rintro h r ⟨⟨k, v⟩, hmem, rfl⟩
      have hl : s.lookup k = some v := by
        have := Finmap.mem_lookup_iff.mpr hmem
        exact this
      exact (requirement_matches_iff k v l).mpr (h k v hl)

theorem specMatches_iff (ao : AllocationOverflow) (gs : GameServer) :
    ((labels.AsSelector ao.Labels).Matches gs.ObjectMeta.Labels = true ∧
      (labels.AsSelector ao.Annotations).Matches gs.ObjectMeta.Annotations = true)
      ↔ SpecMatches ao gs := by
  rw [asSelector_matches_iff, asSelector_matches_iff]
  rfl

/-- The specification's condition is decided by running the two selectors. -/
instance (ao : AllocationOverflow) (gs : GameServer) : Decidable (SpecMatches ao gs) :=
  decidable_of_iff _ (specMatches_iff ao gs)

/-- The loop of `CountMatches` from any intermediate state: the count grows by the number of
matching `Allocated` servers (in `int32` arithmetic), `rest` by the other `Allocated` ones. -/
theorem foldl_step (ao : AllocationOverflow) (list : List GameServer) :
    ∀ (c : Int) (r : List GameServer),
      list.foldl (CountMatches.step (labels.AsSelector ao.Labels) (labels.AsSelector ao.Annotations))
          (int32 c, r)
        = (int32 (c + ((list.filter
              (fun gs => decide (IsAllocated gs ∧ SpecMatches ao gs))).length : Nat)),
           r ++ list.filter (fun gs => decide (IsAllocated gs ∧ ¬ SpecMatches ao gs))) := by
  induction list with
  | nil => intro c r; simp
  | cons gs l ih =>
    intro c r
    rw [List.foldl_cons]
    by_cases ha : IsAllocated gs
    · by_cases hm : SpecMatches ao gs
      · have hm2 := (specMatches_iff ao gs).mpr hm
        have hs : CountMatches.step (labels.AsSelector ao.Labels)
            (labels.AsSelector ao.Annotations) (int32 c, r) gs = (int32 (c + 1), r) := by
          have ha2 : gs.Status.State = GameServerState.Allocated := ha
          simp [CountMatches.step, ha2, hm2.1, hm2.2, int32_succ]
        rw [hs, ih]
        simp [ha, hm, add_assoc, add_comm]
      · have hs : CountMatches.step (labels.AsSelector ao.Labels)
            (labels.AsSelector ao.Annotations) (int32 c, r) gs = (int32 c, r ++ [gs]) := by
          have ha2 : gs.Status.State = GameServerState.Allocated := ha
          have hm2 : ¬ ((labels.AsSelector ao.Labels).Matches gs.ObjectMeta.Labels = true ∧
              (labels.AsSelector ao.Annotations).Matches gs.ObjectMeta.Annotations = true) :=
            fun h => hm ((specMatches_iff ao gs).mp h)
          unfold CountMatches.step
          by_cases h1 : (labels.AsSelector ao.Labels).Matches gs.ObjectMeta.Labels = true
          · have h2 : (labels.AsSelector ao.Annotations).Matches gs.ObjectMeta.Annotations
                = false := by
              cases h : (labels.AsSelector ao.Annotations).Matches gs.ObjectMeta.Annotations
              · rfl
              · exact absurd ⟨h1, h⟩ hm2
            simp [ha2, h1, h2]
          · simp [ha2, h1]
        rw [hs, ih]
        simp [ha, hm]
    · have hs : CountMatches.step (labels.AsSelector ao.Labels)
          (labels.AsSelector ao.Annotations) (int32 c, r) gs = (int32 c, r) := by
        have ha2 : gs.Status.State ≠ GameServerState.Allocated := ha
        simp [CountMatches.step, ha2]
      rw [hs, ih]
      simp [ha]

/-- The result of `CountMatches` in closed form. -/
theorem countMatches_eq (ao : AllocationOverflow) (list : List GameServer) :
    ao.CountMatches list
      = (int32 ((list.filter (fun gs => decide (IsAllocated gs ∧ SpecMatches ao gs))).length : Nat),
         list.filter (fun gs => decide (IsAllocated gs ∧ ¬ SpecMatches ao gs))) := by
  unfold AllocationOverflow.CountMatches
  simp only []
  rw [foldl_step ao list 0 []]
  simp

/-- A list of equal servers that all match: the count is the length in `int32` arithmetic. -/
theorem countMatches_replicate (ao : AllocationOverflow) (gs : GameServer) (n : Nat)
    (ha : IsAllocated gs) (hm : SpecMatches ao gs) :
    ao.CountMatches (List.replicate n gs) = (int32 (n : Int), []) := by
  rw [countMatches_eq]
  have h1 : (List.replicate n gs).filter (fun g => decide (IsAllocated g ∧ SpecMatches ao g))
      = List.replicate n gs := by
    apply List.filter_eq_self.mpr
    intro a hmem
    rw [List.eq_of_mem_replicate hmem]
    simp [ha, hm]
  have h2 : (List.replicate n gs).filter (fun g => decide (IsAllocated g ∧ ¬ SpecMatches ao g))
      = [] := by
    apply List.filter_eq_nil_iff.mpr
    intro a hmem
    rw [List.eq_of_mem_replicate hmem]
    simp [hm]
  rw [h1, h2, List.length_replicate]

/-! ## C1: what `CountMatches` returns -/

/-- C1, as stated, fails: on a list of 2^31 `Allocated` servers that all match (here the empty
overflow and 2^31 references to one server) the 32-bit count has wrapped around to -2^31,
which is not the number of matching servers, 2^31. -/
theorem countMatches_count_wraps :
    (emptyOverflow.CountMatches (List.replicate 2147483648 bareServer)).1 = -2147483648 ∧
    (((List.replicate 2147483648 bareServer).filter
        (fun gs => decide (IsAllocated gs ∧ SpecMatches emptyOverflow gs))).length : Int)
      = 2147483648 := by
  have ha : IsAllocated bareServer := by decide
  have hm : SpecMatches emptyOverflow bareServer := by decide
  constructor
  · rw [countMatches_replicate emptyOverflow bareServer 2147483648 ha hm]
    decide
  · have h1 : (List.replicate 2147483648 bareServer).filter
        (fun g => decide (IsAllocated g ∧ SpecMatches emptyOverflow g))
        = List.replicate 2147483648 bareServer := by
      apply List.filter_eq_self.mpr
      intro a hmem
      rw [List.eq_of_mem_replicate hmem]
      simp [ha, hm]
    rw [h1, List.length_replicate]
    rfl

/-- C1, amended: when fewer than 2^31 servers of the list match, `CountMatches` returns as count
the number of servers that are `Allocated` and carry every label of the overflow among their
labels and every annotation of the overflow among their annotations, each with an equal value;
and as rest exactly the `Allocated` servers for which that condition fails, in list order. -/
theorem countMatches_spec (ao : AllocationOverflow) (list : List GameServer)
    (h : (list.filter (fun gs => decide (IsAllocated gs ∧ SpecMatches ao gs))).length
          < 2147483648) :
    (ao.CountMatches list).1
        = ((list.filter (fun gs => decide (IsAllocated gs ∧ SpecMatches ao gs))).length : Int) ∧
    (ao.CountMatches list).2
        = list.filter (fun gs => decide (IsAllocated gs ∧ ¬ SpecMatches ao gs)) := by
  rw [countMatches_eq]
  exact ⟨int32_of_lt _ h, rfl⟩

/-- C1, an instance: on the mixed list only the server with `tier: drain` among its labels is
counted; the `Ready` server is dropped and the three other `Allocated` servers are the rest. -/
theorem countMatches_spec_witness :
    (mixedList.filter (fun gs => decide (IsAllocated gs ∧ SpecMatches drainOverflow gs))).length
        < 2147483648 ∧
    drainOverflow.CountMatches mixedList
        = (1, [bareServer,
               mkServer "gs-3" GameServerState.Allocated (oneEntry "tier" "gold") none,
               mkServer "gs-4" GameServerState.Allocated none (oneEntry "tier" "drain")]) ∧
    (drainOverflow.CountMatches mixedList).1
        = ((mixedList.filter
            (fun gs => decide (IsAllocated gs ∧ SpecMatches drainOverflow gs))).length : Int) ∧
    (drainOverflow.CountMatches mixedList).2
        = mixedList.filter (fun gs => decide (IsAllocated gs ∧ ¬ SpecMatches drainOverflow gs)) :=
  ⟨by decide, by decide, countMatches_spec drainOverflow mixedList (by decide)⟩

/-! ## C2: servers that are not `Allocated` are ignored -/

/-- C2: every server of the returned rest is `Allocated`; `CountMatches` returns the same count
and rest on the list with all servers that are not `Allocated` removed; hence two lists with the
same `Allocated` servers in the same order give the same result. -/
theorem countMatches_ignores_non_allocated (ao : AllocationOverflow) (list : List GameServer) :
    (∀ gs ∈ (ao.CountMatches list).2, IsAllocated gs) ∧
    ao.CountMatches list = ao.CountMatches (list.filter (fun gs => decide (IsAllocated gs))) ∧
    (∀ other : List GameServer,
      other.filter (fun gs => decide (IsAllocated gs))
        = list.filter (fun gs => decide (IsAllocated gs)) →
      ao.CountMatches other = ao.CountMatches list) := by
  have key : ∀ l : List GameServer,
      ao.CountMatches l = ao.CountMatches (l.filter (fun gs => decide (IsAllocated gs))) := by
    intro l
    rw [countMatches_eq, countMatches_eq, List.filter_filter, List.filter_filter]
    have e1 : (fun gs => decide (IsAllocated gs ∧ SpecMatches ao gs))
        = (fun gs => decide (IsAllocated gs ∧ SpecMatches ao gs) && decide (IsAllocated gs)) := by
      funext gs; by_cases ha : IsAllocated gs <;> simp [ha]
    have e2 : (fun gs => decide (IsAllocated gs ∧ ¬ SpecMatches ao gs))
        = (fun gs => decide (IsAllocated gs ∧ ¬ SpecMatches ao gs) && decide (IsAllocated gs)) := by
      funext gs; by_cases ha : IsAllocated gs <;> simp [ha]
    rw [← e1, ← e2]
  refine ⟨?_, key list, ?_⟩
  · intro gs hgs
    rw [countMatches_eq] at hgs
    have := (List.mem_filter.mp hgs).2
    simp only [decide_eq_true_eq] at this
    exact this.1
  · intro other hother
    rw [key other, key list, hother]

/-! ## C3: `Apply` merges the overflow into the server -/

theorem apply_labels (ao : AllocationOverflow) (gs : GameServer) :
    (ao.Apply gs).ObjectMeta.Labels = applyMap ao.Labels gs.ObjectMeta.Labels := rfl

theorem apply_annotations (ao : AllocationOverflow) (gs : GameServer) :
    (ao.Apply gs).ObjectMeta.Annotations
      = applyMap ao.Annotations gs.ObjectMeta.Annotations := rfl

theorem apply_status (ao : AllocationOverflow) (gs : GameServer) :
    (ao.Apply gs).Status = gs.Status := rfl

/-- The three parts of the merge, for one pair of maps. -/
theorem applyMap_merge (src dst : GoMap) :
    (∀ k v, src.index k = some v → (applyMap src dst).index k = some v) ∧
    (∀ k v, src.index k = none → dst.index k = some v → (applyMap src dst).index k = some v) ∧
    (∀ k, src.index k = none → dst.index k = none → (applyMap src dst).index k = none) := by
  refine ⟨?_, ?_, ?_⟩
  · intro k v h
    rw [applyMap_index, h]; rfl
  · intro k v h hd
    rw [applyMap_index, h, hd]; rfl
  · intro k h hd
    rw [applyMap_index, h, hd]; rfl

/-- C3: after `ao.Apply(gs)`, (i) every key of `ao.Labels` is bound in the server's labels to the
overflow's value, whatever the server had before; (ii) every key the server had that is not a
key of `ao.Labels` keeps its value; (iii) a key in neither map is not in the result; and the same
three statements for annotations with `ao.Annotations`. -/
theorem apply_merges (ao : AllocationOverflow) (gs : GameServer) :
    ((∀ k v, ao.Labels.index k = some v → (ao.Apply gs).ObjectMeta.Labels.index k = some v) ∧
     (∀ k v, ao.Labels.index k = none → gs.ObjectMeta.Labels.index k = some v →
        (ao.Apply gs).ObjectMeta.Labels.index k = some v) ∧
     (∀ k, ao.Labels.index k = none → gs.ObjectMeta.Labels.index k = none →
        (ao.Apply gs).ObjectMeta.Labels.index k = none)) ∧
    ((∀ k v, ao.Annotations.index k = some v →
        (ao.Apply gs).ObjectMeta.Annotations.index k = some v) ∧
     (∀ k v, ao.Annotations.index k = none → gs.ObjectMeta.Annotations.index k = some v →
        (ao.Apply gs).ObjectMeta.Annotations.index k = some v) ∧
     (∀ k, ao.Annotations.index k = none → gs.ObjectMeta.Annotations.index k = none →
        (ao.Apply gs).ObjectMeta.Annotations.index k = none)) := by
  rw [apply_labels, apply_annotations]
  exact ⟨applyMap_merge _ _, applyMap_merge _ _⟩

/-- C3, an instance: applying `tier: drain` to a server labelled `tier: gold, zone: eu`
overwrites `tier`, keeps `zone` and adds no other key. -/
theorem apply_merges_witness :
    drainOverflow.Apply
        (mkServer "gs-5" GameServerState.Allocated (twoEntries "tier" "gold" "zone" "eu") none)
      = mkServer "gs-5" GameServerState.Allocated (twoEntries "tier" "drain" "zone" "eu") none ∧
    (drainOverflow.Apply
        (mkServer "gs-5" GameServerState.Allocated (twoEntries "tier" "gold" "zone" "eu") none)
      ).ObjectMeta.Labels.index "tier" = some "drain" :=
  ⟨by decide,
   (apply_merges drainOverflow
      (mkServer "gs-5" GameServerState.Allocated (twoEntries "tier" "gold" "zone" "eu") none)
    ).1.1 "tier" "drain" (by decide)⟩

/-! ## C4: `Apply` is idempotent -/

theorem applyMap_idem (src dst : GoMap) : applyMap src (applyMap src dst) = applyMap src dst := by
  cases src with
  | none => rfl
  | some s =>
    have h : ∀ d : StringMap, rangeAssign s (rangeAssign s d) = rangeAssign s d := by
      intro d
      apply Finmap.ext_lookup
      intro k
      rw [rangeAssign_lookup, rangeAssign_lookup]
      cases s.lookup k <;> rfl
    cases dst with
    | none => simp only [applyMap, h]
    | some d => simp only [applyMap, h]

/-- C4: applying the overflow twice leaves the server exactly as applying it once does: the same
labels, the same annotations and the same server overall. -/
theorem apply_idempotent (ao : AllocationOverflow) (gs : GameServer) :
    ao.Apply (ao.Apply gs) = ao.Apply gs := by
  simp only [AllocationOverflow.Apply, applyMap_idem]

/-! ## Single servers -/

theorem int32_zero : int32 0 = 0 := by decide

theorem int32_one : int32 1 = 1 := by decide

theorem countMatches_single_matched (ao : AllocationOverflow) (gs : GameServer)
    (ha : IsAllocated gs) (hm : SpecMatches ao gs) : ao.CountMatches [gs] = (1, []) := by
  rw [countMatches_eq]
  simp [ha, hm, int32_one]

theorem countMatches_single_unmatched (ao : AllocationOverflow) (gs : GameServer)
    (ha : IsAllocated gs) (hm : ¬ SpecMatches ao gs) : ao.CountMatches [gs] = (0, [gs]) := by
  rw [countMatches_eq]
  simp [ha, hm, int32_zero]

/-- A server counted as matched is `Allocated` and satisfies the matching condition. -/
theorem matched_of_countMatches_single (ao : AllocationOverflow) (gs : GameServer)
    (h : ao.CountMatches [gs] = (1, [])) : IsAllocated gs ∧ SpecMatches ao gs := by
  rw [countMatches_eq] at h
  by_cases ha : IsAllocated gs
  · by_cases hm : SpecMatches ao gs
    · exact ⟨ha, hm⟩
    · simp [ha, hm] at h
  · simp [ha, int32_zero] at h

/-- After `Apply` the server satisfies the matching condition of the overflow. -/
theorem specMatches_apply (ao : AllocationOverflow) (gs : GameServer) :
    SpecMatches ao (ao.Apply gs) := by
  constructor
  · intro k v h
    rw [apply_labels]
    exact (applyMap_merge _ _).1 k v h
  · intro k v h
    rw [apply_annotations]
    exact (applyMap_merge _ _).1 k v h

theorem isAllocated_apply (ao : AllocationOverflow) (gs : GameServer) :
    IsAllocated (ao.Apply gs) ↔ IsAllocated gs := Iff.rfl

/-! ## C5: counting again after the rest has been marked -/

/-- Counting over a list whose `Allocated` servers all match after a state-preserving update. -/
theorem countMatches_map_all_matched (ao : AllocationOverflow) (f : GameServer → GameServer)
    (list : List GameServer)
    (hf : ∀ gs ∈ list, (IsAllocated (f gs) ↔ IsAllocated gs) ∧
      (IsAllocated gs → SpecMatches ao (f gs))) :
    ao.CountMatches (list.map f)
      = (int32 ((list.filter (fun gs => decide (IsAllocated gs))).length : Nat), []) := by
  rw [countMatches_eq, List.filter_map, List.filter_map, List.length_map]
  have e1 : list.filter ((fun gs => decide (IsAllocated gs ∧ SpecMatches ao gs)) ∘ f)
      = list.filter (fun gs => decide (IsAllocated gs)) := by
    apply List.filter_congr
    intro gs hgs
    obtain ⟨h1, h2⟩ := hf gs hgs
    by_cases ha : IsAllocated gs
    · simp [Function.comp, h1.mpr ha, h2 ha, ha]
    · have : ¬ IsAllocated (f gs) := fun h => ha (h1.mp h)
      simp [Function.comp, this, ha]
  have e2 : list.filter ((fun gs => decide (IsAllocated gs ∧ ¬ SpecMatches ao gs)) ∘ f) = [] := by
    apply List.filter_eq_nil_iff.mpr
    intro gs hgs
    obtain ⟨h1, h2⟩ := hf gs hgs
    by_cases ha : IsAllocated gs
    · simp [Function.comp, h2 ha]
    · have : ¬ IsAllocated (f gs) := fun h => ha (h1.mp h)
      simp [Function.comp, this]
  rw [e1, e2]
  rfl

/-- The second count, in `int32` arithmetic, for every list. -/
theorem countMatches_applyToRest (ao : AllocationOverflow) (list : List GameServer) :
    ao.CountMatches (applyToRest ao list)
      = (int32 ((list.filter (fun gs => decide (IsAllocated gs))).length : Nat), []) := by
  unfold applyToRest
  apply countMatches_map_all_matched
  intro gs hgs
  by_cases hr : gs ∈ (ao.CountMatches list).2
  · simp only [hr, if_true]
    exact ⟨isAllocated_apply ao gs, fun _ => specMatches_apply ao gs⟩
  · simp only [hr, if_false, iff_self, true_and]
    intro ha
    by_contra hm
    apply hr
    rw [countMatches_eq]
    exact List.mem_filter.mpr ⟨hgs, by simp [ha, hm]⟩

/-- C5, as stated, fails: with 2^31 `Allocated` servers (the empty overflow, 2^31 references to
one server) the count after marking the rest is -2^31, not the number of `Allocated` servers. -/
theorem recount_wraps :
    (emptyOverflow.CountMatches
        (applyToRest emptyOverflow (List.replicate 2147483648 bareServer))).1 = -2147483648 ∧
    (((List.replicate 2147483648 bareServer).filter
        (fun gs => decide (IsAllocated gs))).length : Int) = 2147483648 := by
  have ha : IsAllocated bareServer := by decide
  have h1 : (List.replicate 2147483648 bareServer).filter (fun g => decide (IsAllocated g))
      = List.replicate 2147483648 bareServer := by
    apply List.filter_eq_self.mpr
    intro a hmem
    rw [List.eq_of_mem_replicate hmem]
    simp [ha]
  constructor
  · rw [countMatches_applyToRest, h1, List.length_replicate]
    decide
  · rw [h1, List.length_replicate]
    rfl

/-- C5, amended: when the list holds fewer than 2^31 `Allocated` servers, counting again after
`Apply` has been applied to every server of the rest returns the number of `Allocated` servers
of the list and an empty rest; and for every `Allocated` server `gs`, after `Apply`,
`CountMatches(ao, [gs]) = (1, [])`. -/
theorem recount_after_apply (ao : AllocationOverflow) (list : List GameServer)
    (h : (list.filter (fun gs => decide (IsAllocated gs))).length < 2147483648) :
    ao.CountMatches (applyToRest ao list)
        = (((list.filter (fun gs => decide (IsAllocated gs))).length : Int), []) ∧
    (∀ gs, IsAllocated gs → ao.CountMatches [ao.Apply gs] = (1, [])) := by
  constructor
  · rw [countMatches_applyToRest, int32_of_lt _ h]
  · intro gs ha
    exact countMatches_single_matched ao (ao.Apply gs) ((isAllocated_apply ao gs).mpr ha)
      (specMatches_apply ao gs)

/-- C5, the scenario: with overflow labels `tier: drain` and four unlabelled `Allocated` servers
the count is 0 and the rest holds all four before marking; after marking the count is 4 and the
rest is empty. -/
theorem recount_after_apply_witness :
    (scenarioList.filter (fun gs => decide (IsAllocated gs))).length < 2147483648 ∧
    drainOverflow.CountMatches scenarioList = (0, scenarioList) ∧
    drainOverflow.CountMatches (applyToRest drainOverflow scenarioList) = (4, []) ∧
    (drainOverflow.CountMatches (applyToRest drainOverflow scenarioList)
        = (((scenarioList.filter (fun gs => decide (IsAllocated gs))).length : Int), []) ∧
      (∀ gs, IsAllocated gs → drainOverflow.CountMatches [drainOverflow.Apply gs] = (1, []))) :=
  ⟨by decide, by decide, by decide, recount_after_apply drainOverflow scenarioList (by decide)⟩

/-! ## C6: unset keys never match -/

theorem has_iff (m : GoMap) (k : String) : labels.Has m k = true ↔ ∃ v, m.index k = some v := by
  unfold labels.Has
  cases m.index k <;> simp

theorem has_false_iff (m : GoMap) (k : String) : labels.Has m k = false ↔ m.index k = none := by
  unfold labels.Has
  cases m.index k <;> simp

/-- C6: when a key of the overflow's labels is unset in the labels of an `Allocated` server, or a
key of the overflow's annotations is unset in its annotations, `CountMatches` on that server
alone returns count 0 and the server as rest; the server's map may be nil and the overflow's
value for the key may be the empty string. -/
theorem unset_key_never_matches (ao : AllocationOverflow) (gs : GameServer) (k : String)
    (ha : IsAllocated gs)
    (hk : (labels.Has ao.Labels k = true ∧ labels.Has gs.ObjectMeta.Labels k = false) ∨
          (labels.Has ao.Annotations k = true ∧
            labels.Has gs.ObjectMeta.Annotations k = false)) :
    ao.CountMatches [gs] = (0, [gs]) := by
  apply countMatches_single_unmatched ao gs ha
  intro hm
  rcases hk with ⟨h1, h2⟩ | ⟨h1, h2⟩
  · obtain ⟨v, hv⟩ := (has_iff _ _).mp h1
    have := hm.1 k v hv
    rw [(has_false_iff _ _).mp h2] at this
    exact Option.noConfusion this
  · obtain ⟨v, hv⟩ := (has_iff _ _).mp h1
    have := hm.2 k v hv
    rw [(has_false_iff _ _).mp h2] at this
    exact Option.noConfusion this

/-- C6, an instance: the overflow asks for the label `tier` with the empty string as value, the
server's label map is nil; the server is not counted. -/
theorem unset_key_never_matches_witness :
    IsAllocated bareServer ∧
    labels.Has (oneEntry "tier" "") "tier" = true ∧
    labels.Has bareServer.ObjectMeta.Labels "tier" = false ∧
    AllocationOverflow.CountMatches { Labels := oneEntry "tier" "", Annotations := none }
        [bareServer] = (0, [bareServer]) :=
  ⟨by decide, by decide, by decide,
   unset_key_never_matches { Labels := oneEntry "tier" "", Annotations := none } bareServer "tier"
     (by decide) (Or.inl ⟨by decide, by decide⟩)⟩

/-! ## C7: a superset of keys still matches -/

/-- C7: when `CountMatches` counts an `Allocated` server as matched, it also counts as matched
every server obtained from it by adding labels whose keys are not keys of the overflow's labels
and annotations whose keys are not keys of the overflow's annotations. -/
theorem superset_still_matches (ao : AllocationOverflow) (gs : GameServer)
    (extraLabels extraAnnotations : GoMap)
    (ha : IsAllocated gs)
    (hm : ao.CountMatches [gs] = (1, []))
    (hl : ∀ k, labels.Has extraLabels k = true → labels.Has ao.Labels k = false)
    (hn : ∀ k, labels.Has extraAnnotations k = true → labels.Has ao.Annotations k = false) :
    ao.CountMatches [addMetadata extraLabels extraAnnotations gs] = (1, []) := by
  have hs := (matched_of_countMatches_single ao gs hm).2
  have aux : ∀ (extra src dst : GoMap),
      (∀ k, labels.Has extra k = true → labels.Has src k = false) →
      (∀ k v, src.index k = some v → dst.index k = some v) →
      ∀ k v, src.index k = some v → (applyMap extra dst).index k = some v := by
    intro extra src dst hdis hsub k v hkv
    have hnone : extra.index k = none := by
      cases he : extra.index k with
      | none => rfl
      | some w =>
        have h1 := hdis k ((has_iff _ _).mpr ⟨w, he⟩)
        rw [(has_false_iff _ _).mp h1] at hkv
        exact Option.noConfusion hkv
    exact (applyMap_merge extra dst).2.1 k v hnone (hsub k v hkv)
  apply countMatches_single_matched
  · exact ha
  · exact ⟨aux extraLabels ao.Labels gs.ObjectMeta.Labels hl hs.1,
      aux extraAnnotations ao.Annotations gs.ObjectMeta.Annotations hn hs.2⟩

/-- C7, an instance: a server labelled `tier: drain` matches the overflow `tier: drain`, and
still does with the label `zone: eu` and the annotation `owner: ops` added. -/
theorem superset_still_matches_witness :
    IsAllocated (mkServer "gs-6" GameServerState.Allocated (oneEntry "tier" "drain") none) ∧
    addMetadata (oneEntry "zone" "eu") (oneEntry "owner" "ops")
        (mkServer "gs-6" GameServerState.Allocated (oneEntry "tier" "drain") none)
      = mkServer "gs-6" GameServerState.Allocated (twoEntries "zone" "eu" "tier" "drain")
          (oneEntry "owner" "ops") ∧
    drainOverflow.CountMatches
        [addMetadata (oneEntry "zone" "eu") (oneEntry "owner" "ops")
          (mkServer "gs-6" GameServerState.Allocated (oneEntry "tier" "drain") none)]
      = (1, []) :=
  ⟨by decide, by decide,
   superset_still_matches drainOverflow
     (mkServer "gs-6" GameServerState.Allocated (oneEntry "tier" "drain") none)
     (oneEntry "zone" "eu") (oneEntry "owner" "ops") (by decide) (by decide)
     (by
       intro k hk
       have hz : k = "zone" := by
         by_contra hne
         have : labels.Has (oneEntry "zone" "eu") k = false := by
           simp [labels.Has, oneEntry, GoMap.index, Finmap.lookup_eq_none, hne]
         rw [this] at hk
         exact Bool.noConfusion hk
       subst hz
       decide)
     (by
       intro k _
       rfl)⟩

/-! ## C8: `validateName` -/

theorem utf8ByteSize_go_ascii (cs : List Char) (h : ∀ ch ∈ cs, ch.val ≤ 127) :
    String.utf8ByteSize.go cs = cs.length := by
  induction cs with
  | nil => rfl
  | cons c cs ih =>
    have hc : c.val ≤ 127 := h c (List.mem_cons_self _ _)
    have hcs : ∀ ch ∈ cs, ch.val ≤ 127 := fun ch hch => h ch (List.mem_cons_of_mem _ hch)
    have h1 : c.utf8Size = 1 := by
      unfold Char.utf8Size
      simp [hc]
    show String.utf8ByteSize.go cs + c.utf8Size = cs.length + 1
    rw [ih hcs, h1]

/-- For a name of ASCII characters only, the length in bytes is the number of characters. -/
theorem utf8ByteSize_ascii (s : String) (h : ∀ ch ∈ s.data, ch.val ≤ 127) :
    s.utf8ByteSize = s.length := by
  cases s with
  | mk cs => exact utf8ByteSize_go_ascii cs h

/-- C8, as stated, fails: a name of 32 two-byte characters is no more than 63 characters long,
yet `validateName` reports it, because the length it compares with 63 is the length in bytes. -/
theorem validateName_counts_bytes :
    (crd.mk wideName "Fleet").GetName.length ≤ 63 ∧
    validateName (crd.mk wideName "Fleet") ≠ [] := by
  constructor
  · decide
  · decide

/-- C8, amended: `validateName(c)` returns an empty cause list exactly when the name of `c` is no
more than 63 bytes long (UTF-8), and otherwise exactly one cause, of type `FieldValueInvalid`,
with field `Name` and a message that contains the kind and the name; for a name made of ASCII
characters only, the empty list is returned exactly when it is no more than 63 characters
long. -/
theorem validateName_spec (c : crd) :
    (validateName c = [] ↔ c.GetName.utf8ByteSize ≤ 63) ∧
    (¬ c.GetName.utf8ByteSize ≤ 63 →
      ∃ pre mid post : String,
        validateName c = [{ Type_ := CauseTypeFieldValueInvalid, Field := "Name",
                            Message := pre ++ c.Kind ++ mid ++ c.GetName ++ post }]) ∧
    ((∀ ch ∈ c.GetName.data, ch.val ≤ 127) →
      (validateName c = [] ↔ c.GetName.length ≤ 63)) := by
  have main : validateName c = [] ↔ c.GetName.utf8ByteSize ≤ 63 := by
    unfold validateName LabelValueMaxLength
    by_cases h : c.GetName.utf8ByteSize > 63
    · simp [h]
    · simp [h]
      omega
  refine ⟨main, ?_, ?_⟩
  · intro h
    refine ⟨"Length of ", " '", "' name should be no more than 63 characters.", ?_⟩
    have h2 : c.GetName.utf8ByteSize > 63 := by omega
    unfold validateName LabelValueMaxLength
    simp [h2]
  · intro hascii
    rw [main, utf8ByteSize_ascii _ hascii]

/-- C8, instances: a 3-character ASCII name passes; a 64-character ASCII name is reported with
one cause whose message names the kind and the name. -/
theorem validateName_spec_witness :
    validateName (crd.mk "abc" "Fleet") = [] ∧
    validateName (crd.mk (String.mk (List.replicate 64 'a')) "Fleet")
      = [{ Type_ := "FieldValueInvalid", Field := "Name",
           Message := "Length of Fleet '" ++ String.mk (List.replicate 64 'a') ++
             "' name should be no more than 63 characters." }] ∧
    (validateName (crd.mk "abc" "Fleet") = [] ↔ (crd.mk "abc" "Fleet").GetName.length ≤ 63) :=
  ⟨by decide, by decide, (validateName_spec (crd.mk "abc" "Fleet")).2.2 (by decide)⟩

/-! ## C10: `Apply` creates the maps -/

/-- C10, as stated, fails: an overflow whose maps are nil leaves the nil maps of a server nil. -/
theorem apply_keeps_nil_maps :
    bareServer.ObjectMeta.Labels = none ∧
    bareServer.ObjectMeta.Annotations = none ∧
    (emptyOverflow.Apply bareServer).ObjectMeta.Labels = none ∧
    (emptyOverflow.Apply bareServer).ObjectMeta.Annotations = none := by
  decide

/-- C10, amended: when the overflow's labels map is not nil and the server's labels map is nil
before the call, the server's labels map is not nil after `Apply`; the same for annotations;
and a nil map of the overflow leaves the server's map as it was. -/
theorem apply_creates_maps (ao : AllocationOverflow) (gs : GameServer) :
    (ao.Labels ≠ none → gs.ObjectMeta.Labels = none →
      (ao.Apply gs).ObjectMeta.Labels ≠ none) ∧
    (ao.Annotations ≠ none → gs.ObjectMeta.Annotations = none →
      (ao.Apply gs).ObjectMeta.Annotations ≠ none) ∧
    (ao.Labels = none → (ao.Apply gs).ObjectMeta.Labels = gs.ObjectMeta.Labels) ∧
    (ao.Annotations = none →
      (ao.Apply gs).ObjectMeta.Annotations = gs.ObjectMeta.Annotations) := by
  rw [apply_labels, apply_annotations]
  have aux : ∀ src dst : GoMap, src ≠ none → applyMap src dst ≠ none := by
    intro src dst hsrc
    cases src with
    | none => exact absurd rfl hsrc
    | some s => simp [applyMap]
  have aux2 : ∀ src dst : GoMap, src = none → applyMap src dst = dst := by
    intro src dst hsrc
    subst hsrc
    rfl
  exact ⟨fun h _ => aux _ _ h, fun h _ => aux _ _ h, aux2 _ _, aux2 _ _⟩

/-- C10, an instance: `tier: drain` applied to a server with nil maps creates the labels map
(the annotations map, nil in the overflow, stays nil). -/
theorem apply_creates_maps_witness :
    drainOverflow.Labels ≠ none ∧ bareServer.ObjectMeta.Labels = none ∧
    (drainOverflow.Apply bareServer).ObjectMeta.Labels = oneEntry "tier" "drain" ∧
    (drainOverflow.Apply bareServer).ObjectMeta.Annotations = none ∧
    (drainOverflow.Apply bareServer).ObjectMeta.Labels ≠ none :=
  ⟨by decide, by decide, by decide, by decide,
   (apply_creates_maps drainOverflow bareServer).1 (by decide) (by decide)⟩

/-! ## C11: the frame of `Apply` -/

theorem applyMapRef_length (h : MapHeap) (src dst : MapRef) :
    h.length ≤ (applyMapRef h src dst).1.length := by
  cases src with
  | none => exact Nat.le_refl _
  | some a =>
    cases dst with
    | none => simp [applyMapRef]
    | some d => simp [applyMapRef]

/-- A block writes into the object of its destination only. -/
theorem applyMapRef_frame (h : MapHeap) (src dst : MapRef) (b : Nat) (hb : b < h.length)
    (hne : dst ≠ some b) : (applyMapRef h src dst).1[b]? = h[b]? := by
  cases src with
  | none => rfl
  | some a =>
    cases dst with
    | none =>
      have h1 : h.length ≠ b := by omega
      simp only [applyMapRef]
      rw [List.getElem?_set_ne h1, List.getElem?_append_left hb]
    | some d =>
      have h1 : d ≠ b := fun e => hne (by rw [e])
      simp only [applyMapRef]
      rw [List.getElem?_set_ne h1]

theorem applyMapRef_read_frame (h : MapHeap) (src dst r : MapRef) (hr : r.Allocated h)
    (hne : ∀ b, r = some b → dst ≠ some b) :
    (applyMapRef h src dst).1.read r = h.read r := by
  cases r with
  | none => rfl
  | some b => exact applyMapRef_frame h src dst b (hr b rfl) (hne b rfl)

/-- What the destination refers to after a block is what the block on values gives. -/
theorem applyMapRef_read_dst (h : MapHeap) (src dst : MapRef) (hs : src.Allocated h)
    (hd : dst.Allocated h) :
    (applyMapRef h src dst).1.read (applyMapRef h src dst).2
      = applyMap (h.read src) (h.read dst) := by
  cases src with
  | none => rfl
  | some a =>
    have ha : a < h.length := hs a rfl
    cases dst with
    | none =>
      simp [applyMapRef, MapHeap.read, applyMap, ha, List.getElem?_append_left]
    | some d =>
      have hdlt : d < h.length := hd d rfl
      simp [applyMapRef, MapHeap.read, applyMap, ha, hdlt]

theorem applyMapRef_allocated (h : MapHeap) (src dst : MapRef) (hd : dst.Allocated h) :
    (applyMapRef h src dst).2.Allocated (applyMapRef h src dst).1 := by
  cases src with
  | none => exact hd
  | some a =>
    cases dst with
    | none =>
      intro b hb
      simp [applyMapRef] at hb ⊢
      omega
    | some d =>
      intro b hb
      have := hd d rfl
      simp [applyMapRef] at hb ⊢
      omega

theorem refApply_heap (ao : RefAllocationOverflow) (h : MapHeap) (gs : RefGameServer) :
    (ao.Apply h gs).1
      = (applyMapRef (applyMapRef h ao.Annotations gs.ObjectMeta.Annotations).1 ao.Labels
          gs.ObjectMeta.Labels).1 := rfl

/-- `Apply` writes into the objects of the server's two maps only. -/
theorem refApply_frame (ao : RefAllocationOverflow) (h : MapHeap) (gs : RefGameServer)
    (b : Nat) (hb : b < h.length) (hn : gs.ObjectMeta.Annotations ≠ some b)
    (hl : gs.ObjectMeta.Labels ≠ some b) : (ao.Apply h gs).1[b]? = h[b]? := by
  rw [refApply_heap]
  have hb1 : b < (applyMapRef h ao.Annotations gs.ObjectMeta.Annotations).1.length :=
    Nat.lt_of_lt_of_le hb (applyMapRef_length _ _ _)
  rw [applyMapRef_frame _ _ _ b hb1 hl, applyMapRef_frame _ _ _ b hb hn]

theorem refApply_read_frame (ao : RefAllocationOverflow) (h : MapHeap) (gs : RefGameServer)
    (r : MapRef) (hr : r.Allocated h)
    (hne : ∀ b, r = some b → gs.ObjectMeta.Annotations ≠ some b ∧ gs.ObjectMeta.Labels ≠ some b) :
    (ao.Apply h gs).1.read r = h.read r := by
  cases r with
  | none => rfl
  | some b => exact refApply_frame ao h gs b (hr b rfl) (hne b rfl).1 (hne b rfl).2

/-- With separate maps the overflow reads the same before and after `Apply`. -/
theorem refApply_overflow_unchanged (ao : RefAllocationOverflow) (h : MapHeap)
    (gs : RefGameServer) (hl : ao.Labels.Allocated h) (hn : ao.Annotations.Allocated h)
    (hsep : Separate ao gs) : ao.deref (ao.Apply h gs).1 = ao.deref h := by
  unfold RefAllocationOverflow.deref
  rw [refApply_read_frame ao h gs ao.Labels hl
        (fun b hb => ⟨fun e => (hsep b (Or.inr e)).1 hb, fun e => (hsep b (Or.inl e)).1 hb⟩),
      refApply_read_frame ao h gs ao.Annotations hn
        (fun b hb => ⟨fun e => (hsep b (Or.inr e)).2 hb, fun e => (hsep b (Or.inl e)).2 hb⟩)]

theorem allocated_mono (r : MapRef) (h h1 : MapHeap) (hle : h.length ≤ h1.length)
    (hr : r.Allocated h) : r.Allocated h1 :=
  fun a ha => Nat.lt_of_lt_of_le (hr a ha) hle

/-- With separate maps, `Apply` on references computes what `Apply` on values computes. -/
theorem refApply_deref (ao : RefAllocationOverflow) (h : MapHeap) (gs : RefGameServer)
    (hl : ao.Labels.Allocated h) (hn : ao.Annotations.Allocated h)
    (gl : gs.ObjectMeta.Labels.Allocated h) (gn : gs.ObjectMeta.Annotations.Allocated h)
    (hsep : Separate ao gs)
    (hdis : ∀ a, gs.ObjectMeta.Labels = some a → gs.ObjectMeta.Annotations ≠ some a) :
    (ao.Apply h gs).2.deref (ao.Apply h gs).1 = (ao.deref h).Apply (gs.deref h) := by
  have hle := applyMapRef_length h ao.Annotations gs.ObjectMeta.Annotations
  -- the labels block
  have e1 : (ao.Apply h gs).1.read (ao.Apply h gs).2.ObjectMeta.Labels
      = applyMap (h.read ao.Labels) (h.read gs.ObjectMeta.Labels) := by
    show (applyMapRef (applyMapRef h ao.Annotations gs.ObjectMeta.Annotations).1 ao.Labels
            gs.ObjectMeta.Labels).1.read
          (applyMapRef (applyMapRef h ao.Annotations gs.ObjectMeta.Annotations).1 ao.Labels
            gs.ObjectMeta.Labels).2 = _
    rw [applyMapRef_read_dst _ _ _ (allocated_mono _ _ _ hle hl) (allocated_mono _ _ _ hle gl),
      applyMapRef_read_frame h _ _ ao.Labels hl (fun b hb e => (hsep b (Or.inr e)).1 hb),
      applyMapRef_read_frame h _ _ gs.ObjectMeta.Labels gl (fun b hb e => hdis b hb e)]
  -- the annotations block
  have e2 : (ao.Apply h gs).1.read (ao.Apply h gs).2.ObjectMeta.Annotations
      = applyMap (h.read ao.Annotations) (h.read gs.ObjectMeta.Annotations) := by
    show (applyMapRef (applyMapRef h ao.Annotations gs.ObjectMeta.Annotations).1 ao.Labels
            gs.ObjectMeta.Labels).1.read
          (applyMapRef h ao.Annotations gs.ObjectMeta.Annotations).2 = _
    have hall := applyMapRef_allocated h ao.Annotations gs.ObjectMeta.Annotations gn
    have hne : ∀ b, (applyMapRef h ao.Annotations gs.ObjectMeta.Annotations).2 = some b →
        gs.ObjectMeta.Labels ≠ some b := by
      intro b hb e
      have hbl : b < h.length := gl b e
      cases hs : ao.Annotations with
      | none =>
        rw [hs] at hb
        exact hdis b e hb
      | some a =>
        rw [hs] at hb
        cases hg : gs.ObjectMeta.Annotations with
        | none =>
          rw [hg] at hb
          simp [applyMapRef] at hb
          omega
        | some d =>
          rw [hg] at hb
          simp [applyMapRef] at hb
          exact hdis b e (by rw [hg, hb])
    rw [applyMapRef_read_frame _ _ _ _ hall hne, applyMapRef_read_dst _ _ _ hn gn]
  show ({ ObjectMeta :=
            { Name := gs.ObjectMeta.Name, ResourceVersion := gs.ObjectMeta.ResourceVersion,
              Labels := (ao.Apply h gs).1.read (ao.Apply h gs).2.ObjectMeta.Labels,
              Annotations := (ao.Apply h gs).1.read (ao.Apply h gs).2.ObjectMeta.Annotations },
          Status := gs.Status } : GameServer) = _
  rw [e1, e2]
  rfl


/-- C11, as stated, fails: when the annotations of the server are the very map object of the
overflow's labels, `Apply` writes the overflow's annotations into that object, and the overflow
has the label `owner: ops` afterwards that it did not have before. -/
theorem apply_writes_aliased_overflow :
    aliasedServer.ObjectMeta.Annotations = heapOverflow.Labels ∧
    (heapOverflow.deref twoMapHeap).Labels = oneEntry "tier" "drain" ∧
    (heapOverflow.deref (heapOverflow.Apply twoMapHeap aliasedServer).1).Labels
      = twoEntries "owner" "ops" "tier" "drain" ∧
    heapOverflow.deref (heapOverflow.Apply twoMapHeap aliasedServer).1
      ≠ heapOverflow.deref twoMapHeap := by
  decide

/-- C11, amended: after `Apply` the status (so the lifecycle state) and the name of the server
are as before, the server is the server before the call with `ObjectMeta.Labels` and
`ObjectMeta.Annotations` replaced, and an `Allocated` server is still `Allocated`; every map
object other than those of the server's two maps is unchanged; so the overflow is unchanged when
no map of the server is a map object of the overflow; and with separate maps the server
afterwards is what `Apply` on values computes. -/
theorem apply_frame_on_heap (ao : RefAllocationOverflow) (h : MapHeap) (gs : RefGameServer) :
    (ao.Apply h gs).2.Status = gs.Status ∧
    (ao.Apply h gs).2.ObjectMeta.Name = gs.ObjectMeta.Name ∧
    (ao.Apply h gs).2
      = { gs with ObjectMeta :=
            { gs.ObjectMeta with
                Labels := (ao.Apply h gs).2.ObjectMeta.Labels,
                Annotations := (ao.Apply h gs).2.ObjectMeta.Annotations } } ∧
    (gs.Status.State = GameServerState.Allocated →
      (ao.Apply h gs).2.Status.State = GameServerState.Allocated) ∧
    (∀ b, b < h.length → gs.ObjectMeta.Annotations ≠ some b → gs.ObjectMeta.Labels ≠ some b →
      (ao.Apply h gs).1[b]? = h[b]?) ∧
    (ao.Labels.Allocated h → ao.Annotations.Allocated h → Separate ao gs →
      ao.deref (ao.Apply h gs).1 = ao.deref h) ∧
    (ao.Labels.Allocated h → ao.Annotations.Allocated h →
      gs.ObjectMeta.Labels.Allocated h → gs.ObjectMeta.Annotations.Allocated h →
      Separate ao gs →
      (∀ a, gs.ObjectMeta.Labels = some a → gs.ObjectMeta.Annotations ≠ some a) →
      (ao.Apply h gs).2.deref (ao.Apply h gs).1 = (ao.deref h).Apply (gs.deref h)) :=
  ⟨rfl, rfl, rfl, fun hs => hs,
   fun b hb hn hl => refApply_frame ao h gs b hb hn hl,
   refApply_overflow_unchanged ao h gs,
   refApply_deref ao h gs⟩

/-- C11, an instance: the overflow with labels `tier: drain` and annotations `owner: ops`,
applied to an `Allocated` server without maps, creates two map objects for the server and fills
them; the server keeps its status and name, and the overflow reads as before. -/
theorem apply_frame_on_heap_witness :
    (heapOverflow.Apply twoMapHeap freshServer).2.ObjectMeta.Labels = some 3 ∧
    (heapOverflow.Apply twoMapHeap freshServer).2.ObjectMeta.Annotations = some 2 ∧
    (heapOverflow.Apply twoMapHeap freshServer).2.deref
        (heapOverflow.Apply twoMapHeap freshServer).1
      = mkServer "gs-9" GameServerState.Allocated (oneEntry "tier" "drain")
          (oneEntry "owner" "ops") ∧
    heapOverflow.deref (heapOverflow.Apply twoMapHeap freshServer).1
      = heapOverflow.deref twoMapHeap :=
  ⟨by decide, by decide, by decide,
   (apply_frame_on_heap heapOverflow twoMapHeap freshServer).2.2.2.2.2.1
     (fun a ha => by cases ha; decide)
     (fun a ha => by cases ha; decide)
     (fun a ha => by rcases ha with e | e <;> cases e)⟩

/-! ## C12: `Validate` -/

theorem appendCauses_eq (fld : String) (errs : List FieldError) :
    ∀ causes : List StatusCause,
      appendCauses fld causes errs
        = causes ++ errs.map (fun v =>
            ({ Type_ := CauseTypeFieldValueInvalid, Field := fld, Message := v.Error }
              : StatusCause)) := by
  induction errs with
  | nil => intro causes; simp [appendCauses]
  | cons e errs ih =>
    intro causes
    have h := ih (causes ++
      [{ Type_ := CauseTypeFieldValueInvalid, Field := fld, Message := e.Error }])
    simp only [appendCauses, List.foldl_cons] at h ⊢
    rw [h]
    simp

/-- The cause list of `Validate` in closed form. -/
theorem validate_causes (VL VA : GoMap → String → List FieldError) (ao : AllocationOverflow) :
    (ao.Validate VL VA).1
      = (VL ao.Labels "Spec.AllocationOverflow").map (fun v =>
          ({ Type_ := CauseTypeFieldValueInvalid, Field := "labels", Message := v.Error }
            : StatusCause))
        ++ (VA ao.Annotations "Spec.AllocationOverflow").map (fun v =>
          ({ Type_ := CauseTypeFieldValueInvalid, Field := "annotations", Message := v.Error }
            : StatusCause)) := by
  unfold AllocationOverflow.Validate
  simp only []
  cases hl : VL ao.Labels "Spec.AllocationOverflow" with
  | nil =>
    cases hn : VA ao.Annotations "Spec.AllocationOverflow" with
    | nil => simp
    | cons b bs => simp [appendCauses_eq]
  | cons a as =>
    cases hn : VA ao.Annotations "Spec.AllocationOverflow" with
    | nil => simp [appendCauses_eq]
    | cons b bs => simp [appendCauses_eq]

/-- C12: whatever the two validators are, the boolean that `Validate` returns is true exactly
when the cause list is empty, which is the case exactly when neither the label validator nor the
annotation validator reports an error; and the cause list holds one `FieldValueInvalid` cause
per reported error, those of field `labels` first, in the validator's order, then those of field
`annotations`, each with the error's text as message. -/
theorem validate_spec (VL VA : GoMap → String → List FieldError) (ao : AllocationOverflow) :
    ((ao.Validate VL VA).2 = true ↔ (ao.Validate VL VA).1 = []) ∧
    ((ao.Validate VL VA).1 = [] ↔
      VL ao.Labels "Spec.AllocationOverflow" = [] ∧
      VA ao.Annotations "Spec.AllocationOverflow" = []) ∧
    (ao.Validate VL VA).1
      = (VL ao.Labels "Spec.AllocationOverflow").map (fun v =>
          ({ Type_ := CauseTypeFieldValueInvalid, Field := "labels", Message := v.Error }
            : StatusCause))
        ++ (VA ao.Annotations "Spec.AllocationOverflow").map (fun v =>
          ({ Type_ := CauseTypeFieldValueInvalid, Field := "annotations", Message := v.Error }
            : StatusCause)) := by
  refine ⟨?_, ?_, validate_causes VL VA ao⟩
  · show (((ao.Validate VL VA).1.length == 0) = true) ↔ _
    simp [List.length_eq_zero]
  · rw [validate_causes]
    simp

/-- C12, instances: with validators that report nothing the result is the empty list and true;
with two label errors and one annotation error it is three causes in that order and false. -/
theorem validate_spec_witness :
    drainOverflow.Validate (fun _ _ => []) (fun _ _ => []) = ([], true) ∧
    drainOverflow.Validate
        (fun _ path => [{ Error := path ++ ": first" }, { Error := path ++ ": second" }])
        (fun _ path => [{ Error := path ++ ": third" }])
      = ([{ Type_ := "FieldValueInvalid", Field := "labels",
            Message := "Spec.AllocationOverflow: first" },
          { Type_ := "FieldValueInvalid", Field := "labels",
            Message := "Spec.AllocationOverflow: second" },
          { Type_ := "FieldValueInvalid", Field := "annotations",
            Message := "Spec.AllocationOverflow: third" }], false) ∧
    ((drainOverflow.Validate (fun _ _ => []) (fun _ _ => [])).2 = true ↔
      (drainOverflow.Validate (fun _ _ => []) (fun _ _ => [])).1 = []) :=
  ⟨by decide, by decide, (validate_spec (fun _ _ => []) (fun _ _ => []) drainOverflow).1⟩

/-! ## C13: `CountMatches` partitions the `Allocated` servers -/

/-- The matching and the other `Allocated` servers together are the `Allocated` servers. -/
theorem filter_lengths (ao : AllocationOverflow) (list : List GameServer) :
    (list.filter (fun gs => decide (IsAllocated gs ∧ SpecMatches ao gs))).length
      + (list.filter (fun gs => decide (IsAllocated gs ∧ ¬ SpecMatches ao gs))).length
      = (list.filter (fun gs => decide (IsAllocated gs))).length := by
  induction list with
  | nil => rfl
  | cons gs l ih =>
    by_cases ha : IsAllocated gs
    · by_cases hm : SpecMatches ao gs
      · simp [ha, hm] at ih ⊢
        omega
      · simp [ha, hm] at ih ⊢
        omega
    · simp [ha] at ih ⊢
      omega

/-- C13: for a list of fewer than 2^31 servers, with `(count, rest) = CountMatches(ao, list)`,
`count + length(rest)` is the number of `Allocated` servers of the list,
`0 <= count <= length(list)`, and `rest` is a subsequence of the list. -/
theorem countMatches_partition (ao : AllocationOverflow) (list : List GameServer)
    (h : list.length < 2147483648) :
    (ao.CountMatches list).1 + ((ao.CountMatches list).2.length : Int)
        = ((list.filter (fun gs => decide (IsAllocated gs))).length : Int) ∧
    0 ≤ (ao.CountMatches list).1 ∧
    (ao.CountMatches list).1 ≤ (list.length : Int) ∧
    List.Sublist (ao.CountMatches list).2 list := by
  rw [countMatches_eq]
  have hle : (list.filter (fun gs => decide (IsAllocated gs ∧ SpecMatches ao gs))).length
      ≤ list.length := List.length_filter_le _ _
  have hsum := filter_lengths ao list
  rw [int32_of_lt _ (by omega)]
  dsimp only
  exact ⟨by omega, by omega, by omega, List.filter_sublist _⟩

/-- C13, an instance: on the mixed list of five servers, four of them `Allocated`, the count is 1
and the rest has three servers. -/
theorem countMatches_partition_witness :
    mixedList.length < 2147483648 ∧
    (drainOverflow.CountMatches mixedList).1 = 1 ∧
    (drainOverflow.CountMatches mixedList).2.length = 3 ∧
    (mixedList.filter (fun gs => decide (IsAllocated gs))).length = 4 ∧
    ((drainOverflow.CountMatches mixedList).1
        + (((drainOverflow.CountMatches mixedList).2.length : Nat) : Int)
        = ((mixedList.filter (fun gs => decide (IsAllocated gs))).length : Int) ∧
      0 ≤ (drainOverflow.CountMatches mixedList).1 ∧
      (drainOverflow.CountMatches mixedList).1 ≤ (mixedList.length : Int) ∧
      List.Sublist (drainOverflow.CountMatches mixedList).2 mixedList) :=
  ⟨by decide, by decide, by decide, by decide,
   countMatches_partition drainOverflow mixedList (by decide)⟩

/-! ## C14: an overflow without labels and annotations -/

theorem index_of_len_zero (m : GoMap) (h : m.len = 0) (k : String) : m.index k = none := by
  cases m with
  | none => rfl
  | some s =>
    have he : s.entries = 0 := Multiset.card_eq_zero.mp h
    cases hk : s.lookup k with
    | none => exact hk
    | some v =>
      have hmem : (⟨k, v⟩ : Sigma (fun _ : String => String)) ∈ s.entries :=
        Finmap.mem_lookup_iff.mp (by rw [hk]; exact rfl)
      rw [he] at hmem
      exact absurd hmem (Multiset.not_mem_zero _)

/-- An overflow whose maps are nil or empty matches every server. -/
theorem specMatches_of_empty (ao : AllocationOverflow) (hl : ao.Labels.len = 0)
    (hn : ao.Annotations.len = 0) (gs : GameServer) : SpecMatches ao gs := by
  constructor
  · intro k v hkv
    rw [index_of_len_zero _ hl k] at hkv
    exact Option.noConfusion hkv
  · intro k v hkv
    rw [index_of_len_zero _ hn k] at hkv
    exact Option.noConfusion hkv

/-- C14, as stated, fails: with two empty maps as overflow and 2^31 `Allocated` servers the count
is -2^31, not the number of `Allocated` servers. -/
theorem empty_overflow_count_wraps :
    emptyMapsOverflow.Labels.len = 0 ∧ emptyMapsOverflow.Annotations.len = 0 ∧
    (emptyMapsOverflow.CountMatches (List.replicate 2147483648 bareServer)).1 = -2147483648 ∧
    (((List.replicate 2147483648 bareServer).filter
        (fun gs => decide (IsAllocated gs))).length : Int) = 2147483648 := by
  have ha : IsAllocated bareServer := by decide
  have hm : SpecMatches emptyMapsOverflow bareServer :=
    specMatches_of_empty emptyMapsOverflow (by decide) (by decide) bareServer
  have h1 : (List.replicate 2147483648 bareServer).filter (fun g => decide (IsAllocated g))
      = List.replicate 2147483648 bareServer := by
    apply List.filter_eq_self.mpr
    intro a hmem
    rw [List.eq_of_mem_replicate hmem]
    simp [ha]
  refine ⟨by decide, by decide, ?_, ?_⟩
  · rw [countMatches_replicate emptyMapsOverflow bareServer 2147483648 ha hm]
    decide
  · rw [h1, List.length_replicate]
    rfl

/-- C14, amended: when the overflow has neither labels nor annotations (each map nil or empty)
and the list holds fewer than 2^31 `Allocated` servers, `CountMatches` returns the number of
`Allocated` servers of the list as count and an empty rest. -/
theorem empty_overflow_matches_all (ao : AllocationOverflow) (list : List GameServer)
    (hl : ao.Labels.len = 0) (hn : ao.Annotations.len = 0)
    (h : (list.filter (fun gs => decide (IsAllocated gs))).length < 2147483648) :
    ao.CountMatches list
      = (((list.filter (fun gs => decide (IsAllocated gs))).length : Int), []) := by
  have hmap := countMatches_map_all_matched ao id list
    (fun gs _ => ⟨Iff.rfl, fun _ => specMatches_of_empty ao hl hn gs⟩)
  rw [List.map_id] at hmap
  rw [hmap, int32_of_lt _ h]

/-- C14, an instance: the overflow with a nil labels map and an empty annotations map counts the
four `Allocated` servers of the mixed list and leaves no rest. -/
theorem empty_overflow_matches_all_witness :
    GoMap.len none = 0 ∧ GoMap.len (some ∅) = 0 ∧
    (mixedList.filter (fun gs => decide (IsAllocated gs))).length = 4 ∧
    AllocationOverflow.CountMatches { Labels := none, Annotations := some ∅ } mixedList
      = (4, []) ∧
    AllocationOverflow.CountMatches { Labels := none, Annotations := some ∅ } mixedList
      = (((mixedList.filter (fun gs => decide (IsAllocated gs))).length : Int), []) :=
  ⟨by decide, by decide, by decide, by decide,
   empty_overflow_matches_all { Labels := none, Annotations := some ∅ } mixedList
     (by decide) (by decide) (by decide)⟩

/-! ## C15: matched servers are the fixed points of `Apply` -/

/-- The copy leaves the destination the same mapping exactly when every binding of the source is
already a binding of the destination. -/
theorem sameMapping_applyMap_iff (src dst : GoMap) :
    SameMapping (applyMap src dst) dst ↔ ∀ k v, src.index k = some v → dst.index k = some v := by
  constructor
  · intro h k v hkv
    have := h k
    rw [applyMap_index, hkv] at this
    exact this.symm
  · intro h k
    rw [applyMap_index]
    cases hk : src.index k with
    | none => rfl
    | some v => exact (h k v hk).symm

/-- C15: for an `Allocated` server `gs`, `CountMatches(ao, [gs])` returns `(1, [])` exactly when
`Apply` leaves the labels and the annotations of `gs` the same key-to-value mappings (a nil map
and an empty map being the same mapping). -/
theorem matched_iff_apply_fixed (ao : AllocationOverflow) (gs : GameServer)
    (ha : IsAllocated gs) :
    ao.CountMatches [gs] = (1, []) ↔
      SameMapping (ao.Apply gs).ObjectMeta.Labels gs.ObjectMeta.Labels ∧
      SameMapping (ao.Apply gs).ObjectMeta.Annotations gs.ObjectMeta.Annotations := by
  rw [apply_labels, apply_annotations, sameMapping_applyMap_iff, sameMapping_applyMap_iff]
  constructor
  · intro h
    exact (matched_of_countMatches_single ao gs h).2
  · intro h
    exact countMatches_single_matched ao gs ha h

/-- C15, an instance: a server labelled `tier: drain` with a nil annotations map is counted as
matched by the overflow with labels `tier: drain` and an empty annotations map; `Apply` turns
the nil annotations map into an empty one, the same mapping. -/
theorem matched_iff_apply_fixed_witness :
    IsAllocated (mkServer "gs-7" GameServerState.Allocated (oneEntry "tier" "drain") none) ∧
    (AllocationOverflow.Apply { Labels := oneEntry "tier" "drain", Annotations := some ∅ }
        (mkServer "gs-7" GameServerState.Allocated (oneEntry "tier" "drain") none)
      ).ObjectMeta.Annotations = some ∅ ∧
    (SameMapping
        (AllocationOverflow.Apply { Labels := oneEntry "tier" "drain", Annotations := some ∅ }
          (mkServer "gs-7" GameServerState.Allocated (oneEntry "tier" "drain") none)
        ).ObjectMeta.Labels
        (mkServer "gs-7" GameServerState.Allocated (oneEntry "tier" "drain") none
        ).ObjectMeta.Labels ∧
      SameMapping
        (AllocationOverflow.Apply { Labels := oneEntry "tier" "drain", Annotations := some ∅ }
          (mkServer "gs-7" GameServerState.Allocated (oneEntry "tier" "drain") none)
        ).ObjectMeta.Annotations
        (mkServer "gs-7" GameServerState.Allocated (oneEntry "tier" "drain") none
        ).ObjectMeta.Annotations) :=
  ⟨by decide, by decide,
   (matched_iff_apply_fixed { Labels := oneEntry "tier" "drain", Annotations := some ∅ }
      (mkServer "gs-7" GameServerState.Allocated (oneEntry "tier" "drain") none)
      (by decide)).mp (by decide)⟩

end Agones
